import Mathlib

/-!
Verification of the minibatch SGD notebook (`opt_jax.ipynb`).

The development shallowly embeds the three code components the claims are
about:

* `make_batch_stream` (notebook cell 17): `tf.data.Dataset.from_tensor_slices`
  followed by `.batch(batch_size)` with the library default
  `drop_remainder=False`, i.e. consecutive chunks of `batch_size` rows with a
  final shorter chunk when `batch_size` does not divide `N`.
* the two training loops `sgd` (cell 19) and `sgd_jax` (cell 22); Python
  variables that may be read while still unbound (`batch`, `batch_loss`) are
  modelled as `Option`, and reading an unbound one produces a `NameError`
  through `Except`.
* the logistic-regression objective (cell 8): `sigmoid`, `BCE_with_logits`,
  `predict_logit`, `predict_prob`, `NLL`, `NLL_grad`, with JAX arrays as
  finite index functions into `ℝ` and `jax.scipy.special.logsumexp` as the
  mathematical `log (exp a + exp b)`.

Rational numbers stand in for the floating-point scalars threaded through the
loops (the loops are arithmetic-agnostic), and real numbers for the analytic
claims about the objective.
-/

set_option maxHeartbeats 1000000

namespace OptJax

/- ===================== Part 1: the batch stream (cell 17) ===================== -/

/-- One minibatch: a block of feature rows `X` and the matching labels `y`,
as produced by batching `{"X": X_train, "y": y_train}`. -/
structure Batch (α : Type) where
  X : List (List α)
  y : List α
deriving DecidableEq

/-- Fuel-indexed worker for `chunks`; the fuel is always instantiated with the
length of the list, which bounds the recursion depth when `bs ≠ 0`. -/
def chunksAux (bs : Nat) : Nat → List α → List (List α)
  | _, [] => []
  | 0, _ :: _ => []
  | fuel + 1, x :: xs => (x :: xs).take bs :: chunksAux bs fuel ((x :: xs).drop bs)

/-- Semantics of `tf.data.Dataset.batch(bs)` with the default
`drop_remainder=False`: consecutive chunks of `bs` elements, the last chunk
shorter when `bs` does not divide the length. -/
def chunks (bs : Nat) (l : List α) : List (List α) :=
  if bs = 0 then [] else chunksAux bs l.length l

/-- `make_batch_stream(X_train, y_train, batch_size)` from cell 17.
`from_tensor_slices` zips the rows of `X_train` with the entries of `y_train`
(raising when the first dimensions disagree), `.batch` groups them, and each
group is a `Batch`.  A non-positive batch size is rejected by TensorFlow.
The notebook also prints `floor(N/batch_size)` as the number of batches; that
is observational only and does not match the stream when a remainder exists. -/
def make_batch_stream (X_train : List (List α)) (y_train : List α)
    (batch_size : Int) : Except String (List (Batch α)) :=
  if X_train.length ≠ y_train.length then
    .error "ValueError: tensors must have the same first dimension"
  else if batch_size ≤ 0 then
    .error "InvalidArgumentError: Batch size must be greater than zero"
  else
    .ok ((chunks batch_size.toNat (X_train.zip y_train)).map
      (fun c => ⟨c.map Prod.fst, c.map Prod.snd⟩))

/-- Number of batches a `make_batch_stream` result yields (0 on error). -/
def streamNumBatches (e : Except String (List (Batch α))) : Nat :=
  match e with
  | .ok s => s.length
  | .error _ => 0

/-- Closed form of the batch stream for positive batch size `b`: batch `i`
holds rows `i*b, …, i*b + b - 1`, and there are `⌈N/b⌉` batches. -/
def batchesSpec (X : List (List α)) (y : List α) (b : Nat) : List (Batch α) :=
  (List.range ((X.length + b - 1) / b)).map
    (fun i => ⟨(X.drop (i * b)).take b, (y.drop (i * b)).take b⟩)

/- ===================== Part 2: the training loops (cells 19 and 22) ===================== -/

/-- The pluggable optimizer triple of `jax.experimental.optimizers`:
`opt_init`, `opt_update`, `get_params`. -/
structure Optimizer (P S G : Type) where
  opt_init : P → S
  opt_update : Nat → G → S → S
  get_params : S → P

/-- The function-scoped mutable variables of `sgd_jax`.  `batch` is the inner
loop variable, which in Python stays bound after the loop and is unbound
(`none`) until the first iteration ever runs. -/
structure SgdJaxState (P S B L : Type) where
  total_steps : Nat
  opt_state : S
  batch : Option B
  params : P
  loss_history : List L

/-- The nested `update(i, opt_state, batch)` of `sgd_jax`: extract the
parameters, evaluate the gradient oracle (`grad(loss_fn)` in the source), and
apply the optimizer update.  The autodiff facility is an external collaborator,
so the gradient-of-the-loss function `grad_loss` is passed explicitly. -/
def update (opt : Optimizer P S G) (grad_loss : P → B → G)
    (i : Nat) (opt_state : S) (batch : B) : S :=
  let params := opt.get_params opt_state
  let g := grad_loss params batch
  opt.opt_update i g opt_state

/-- The body of the inner `for batch_dict in batch_stream` loop of `sgd_jax`:
`total_steps += 1; opt_state = update(total_steps, opt_state, batch)`, with the
loop variable `batch` rebound to the current batch. -/
def sgd_jax_step (grad_loss : P → B → G) (opt : Optimizer P S G)
    (acc : SgdJaxState P S B L) (b : B) : SgdJaxState P S B L :=
  { acc with
    total_steps := acc.total_steps + 1
    opt_state := update opt grad_loss (acc.total_steps + 1) acc.opt_state b
    batch := some b }

/-- One iteration of the outer `for epoch in range(max_epochs)` loop of
`sgd_jax`: run the inner batch loop, then recompute `params`, evaluate the
loss on the (last) `batch`, and append it to `loss_history`.  If `batch` was
never bound, Python raises a `NameError` at the loss evaluation. -/
def sgd_jax_epoch (loss_fn : P → B → L) (grad_loss : P → B → G)
    (opt : Optimizer P S G) (batch_stream : List B)
    (st : SgdJaxState P S B L) : Except String (SgdJaxState P S B L) :=
  let st1 := batch_stream.foldl (sgd_jax_step grad_loss opt) st
  let params := opt.get_params st1.opt_state
  match st1.batch with
  | none => .error "NameError: name batch is not defined"
  | some b =>
      .ok { st1 with
            params := params
            loss_history := st1.loss_history ++ [loss_fn params b] }

/-- `sgd_jax(params, loss_fn, batch_stream, max_epochs, opt_init, opt_update,
get_params)` from cell 22, returning `(params, loss_history)`. -/
def sgd_jax (params : P) (loss_fn : P → B → L) (grad_loss : P → B → G)
    (batch_stream : List B) (max_epochs : Nat) (opt : Optimizer P S G) :
    Except String (P × List L) :=
  (((List.range max_epochs).foldlM
      (fun st _ => sgd_jax_epoch loss_fn grad_loss opt batch_stream st)
      ⟨0, opt.opt_init params, none, params, []⟩ : Except String _)).map
    (fun st => (st.params, st.loss_history))

/-- Scalar-times-vector, `lr * batch_grad` on numpy arrays. -/
def vsmul (c : ℚ) (v : List ℚ) : List ℚ := v.map (fun x => c * x)

/-- Vector subtraction, `params - lr * batch_grad` on numpy arrays. -/
def vsub (v w : List ℚ) : List ℚ := List.zipWith (fun a b => a - b) v w

/-- The function-scoped mutable variables of `sgd`.  `batch_loss` is set in
the inner loop and read by the epoch-end print; it is unbound (`none`) until
the first iteration ever runs. -/
structure SgdState where
  params : List ℚ
  batch_loss : Option ℚ

/-- The body of the inner `for batch_dict in batch_iter` loop of `sgd`:
`batch_grad = grad_loss_fn(params, batch); params = params - lr*batch_grad;
batch_loss = loss_fn(params, batch)`. -/
def sgd_batch_step (loss_fn : List ℚ → B → ℚ)
    (grad_loss_fn : List ℚ → B → List ℚ) (lr : ℚ)
    (acc : SgdState) (batch : B) : SgdState :=
  let batch_grad := grad_loss_fn acc.params batch
  let params := vsub acc.params (vsmul lr batch_grad)
  { params := params, batch_loss := some (loss_fn params batch) }

/-- One iteration of the outer loop of `sgd` (cell 19): update `params` once
per batch, remember the last batch loss, and at the print cadence read
`batch_loss` (a `NameError` if no batch ever ran). -/
def sgd_epoch (loss_fn : List ℚ → B → ℚ) (grad_loss_fn : List ℚ → B → List ℚ)
    (batch_iter : List B) (lr : ℚ) (print_every : Nat) (epoch : Nat)
    (st : SgdState) : Except String SgdState :=
  let st1 := batch_iter.foldl (sgd_batch_step loss_fn grad_loss_fn lr) st
  if epoch % print_every = 0 then
    match st1.batch_loss with
    | none => .error "NameError: name batch_loss is not defined"
    | some _ => .ok st1
  else
    .ok st1

/-- `sgd(params, loss_fn, grad_loss_fn, batch_iter, max_epochs, lr)` from
cell 19; the source returns the 1-tuple `(params,)`, modelled as the final
parameter vector.  `print_every = max(1, int(0.1*max_epochs))` is modelled
with natural division; it only gates the observational print. -/
def sgd (params : List ℚ) (loss_fn : List ℚ → B → ℚ)
    (grad_loss_fn : List ℚ → B → List ℚ) (batch_iter : List B)
    (max_epochs : Nat) (lr : ℚ) : Except String (List ℚ) :=
  let print_every := max 1 (max_epochs / 10)
  (((List.range max_epochs).foldlM
      (fun st epoch => sgd_epoch loss_fn grad_loss_fn batch_iter lr print_every epoch st)
      ⟨params, none⟩ : Except String SgdState)).map (fun st => st.params)

/-- `jax.experimental.optimizers.constant(step_size)`: the constant
learning-rate schedule. -/
def constant (step_size : ℚ) : Nat → ℚ := fun _ => step_size

/-- `jax.experimental.optimizers.sgd(step_size)`: plain SGD as an optimizer
triple, `state = params`, `init p = p`, `update i g x = x - step_size(i)*g`,
`get_params x = x`. -/
def sgdOptimizer (step_size : Nat → ℚ) : Optimizer (List ℚ) (List ℚ) (List ℚ) :=
  ⟨fun x0 => x0, fun i g x => vsub x (vsmul (step_size i) g), fun x => x⟩

/- Specification-side helpers used to state the theorems. -/

/-- One inner-loop step of `sgd_jax` acting on the pair
`(total_steps, opt_state)`. -/
def stepPair (grad_loss : P → B → G) (opt : Optimizer P S G)
    (acc : Nat × S) (b : B) : Nat × S :=
  (acc.1 + 1, update opt grad_loss (acc.1 + 1) acc.2 b)

/-- The `(total_steps, opt_state)` pair of `sgd_jax` after `k` full epochs. -/
def optIterate (grad_loss : P → B → G) (opt : Optimizer P S G)
    (batch_stream : List B) (params : P) : Nat → Nat × S
  | 0 => (0, opt.opt_init params)
  | k + 1 => batch_stream.foldl (stepPair grad_loss opt)
      (optIterate grad_loss opt batch_stream params k)

/-- Instrumentation optimizer whose state records every iteration index the
loop passes to `opt_update`. -/
def indexRecorder (G : Type) : Optimizer (List Nat) (List Nat) G :=
  ⟨fun p => p, fun i _ st => st ++ [i], fun st => st⟩

/-- The sequence of iteration indices `sgd_jax` feeds to the optimizer over a
whole run, observed through `indexRecorder`. -/
def stepIndices (batch_stream : List B) (max_epochs : Nat) : Except String (List Nat) :=
  (sgd_jax [] (fun _ _ => ()) (fun _ _ => ()) batch_stream max_epochs
    (indexRecorder Unit)).map Prod.fst

/-- Instrumentation optimizer whose state records every batch consumed, fed
through a gradient oracle that returns the batch itself. -/
def batchRecorder (B : Type) : Optimizer (List B) (List B) B :=
  ⟨fun p => p, fun _ g st => st ++ [g], fun st => st⟩

/-- The sequence of batches `sgd_jax` consumes over a whole run, observed
through `batchRecorder`. -/
def consumedBatches (batch_stream : List B) (max_epochs : Nat) : Except String (List B) :=
  (sgd_jax [] (fun _ _ => ()) (fun _ b => b) batch_stream max_epochs
    (batchRecorder B)).map Prod.fst

/-- A small concrete optimizer over rational scalars, used to evaluate the
loop characterizations at concrete inputs. -/
def addOptimizer : Optimizer ℚ ℚ ℚ := ⟨fun p => p, fun _ g s => s + g, fun s => s⟩

/-- One update of the minimal hand-written SGD loop,
`params - lr * grad_loss_fn(params, batch)`. -/
def sgdStep (grad_loss_fn : List ℚ → B → List ℚ) (lr : ℚ)
    (p : List ℚ) (b : B) : List ℚ :=
  vsub p (vsmul lr (grad_loss_fn p b))

/-- The parameter vector of the minimal SGD loop after `k` full epochs. -/
def sgdIterate (grad_loss_fn : List ℚ → B → List ℚ) (lr : ℚ)
    (batch_stream : List B) (params : List ℚ) : Nat → List ℚ
  | 0 => params
  | k + 1 => batch_stream.foldl (sgdStep grad_loss_fn lr)
      (sgdIterate grad_loss_fn lr batch_stream params k)

/- ===================== Part 3: the objective model (cells 8 and 11) ===================== -/

/-- `sigmoid(x) = 0.5 * (tanh(x / 2) + 1)` from cell 8. -/
noncomputable def sigmoid (x : ℝ) : ℝ := 0.5 * (Real.tanh (x / 2) + 1)

/-- `jax.scipy.special.logsumexp` on a two-element axis:
`log (exp a1 + exp a2)`. -/
noncomputable def logsumexp2 (a1 a2 : ℝ) : ℝ := Real.log (Real.exp a1 + Real.exp a2)

/-- `BCE_with_logits(logits, targets)` from cell 8:
`logp1 = -logsumexp([0, -a])`, `logp0 = -logsumexp([0, a])`, and the loss is
the negated mean of `logp1 * y + logp0 * (1 - y)`. -/
noncomputable def BCE_with_logits {N : ℕ} (logits targets : Fin N → ℝ) : ℝ :=
  -(∑ n, ((-logsumexp2 0 (-logits n)) * targets n
      + (-logsumexp2 0 (logits n)) * (1 - targets n))) / N

/-- `predict_logit(weights, inputs) = inputs · weights` (row-wise dot). -/
noncomputable def predict_logit {N D : ℕ} (weights : Fin D → ℝ)
    (inputs : Fin N → Fin D → ℝ) : Fin N → ℝ :=
  fun n => ∑ j, inputs n j * weights j

/-- `predict_prob(weights, inputs) = sigmoid(predict_logit(weights, inputs))`. -/
noncomputable def predict_prob {N D : ℕ} (weights : Fin D → ℝ)
    (inputs : Fin N → Fin D → ℝ) : Fin N → ℝ :=
  fun n => sigmoid (predict_logit weights inputs n)

/-- `NLL(weights, batch)` from cell 8: binary cross-entropy of the logits. -/
noncomputable def NLL {N D : ℕ} (weights : Fin D → ℝ)
    (batch : (Fin N → Fin D → ℝ) × (Fin N → ℝ)) : ℝ :=
  BCE_with_logits (predict_logit weights batch.1) batch.2

/-- `NLL_grad(weights, batch)` from cell 8: the analytic gradient
`(1/N) · Xᵗ · (mu - y)` written as `sum(diag(mu - y) · X, axis=0) / N`. -/
noncomputable def NLL_grad {N D : ℕ} (weights : Fin D → ℝ)
    (batch : (Fin N → Fin D → ℝ) × (Fin N → ℝ)) : Fin D → ℝ :=
  fun j => (∑ n, (predict_prob weights batch.1 n - batch.2 n) * batch.1 n j) / N

/-- Modelled from the spec: the automatic-differentiation facility
(`jax.grad(NLL)` in cell 11) is an external collaborator treated as an opaque
"gradient of a scalar function at a point" oracle, so it is embedded as the
mathematical gradient: component `j` is the derivative of the loss along the
`j`-th coordinate of the weight vector. -/
noncomputable def grad_jax {N D : ℕ} (weights : Fin D → ℝ)
    (batch : (Fin N → Fin D → ℝ) × (Fin N → ℝ)) : Fin D → ℝ :=
  fun j => deriv (fun t => NLL (Function.update weights j t) batch) (weights j)

/-- Modelled from the spec: the naive negative log-likelihood
`-mean(y * log(sigmoid(a)) + (1 - y) * log(1 - sigmoid(a)))`, the comparison
point for the log-sum-exp formulation. -/
noncomputable def NLL_naive {N D : ℕ} (weights : Fin D → ℝ)
    (batch : (Fin N → Fin D → ℝ) × (Fin N → ℝ)) : ℝ :=
  -(∑ n, (batch.2 n * Real.log (sigmoid (predict_logit weights batch.1 n))
      + (1 - batch.2 n) * Real.log (1 - sigmoid (predict_logit weights batch.1 n)))) / N

/- ===================== Lemmas about the batch stream ===================== -/

theorem chunksAux_congr (bs : Nat) (hbs : bs ≠ 0) :
    ∀ (f₁ f₂ : Nat) (l : List α), l.length ≤ f₁ → l.length ≤ f₂ →
      chunksAux bs f₁ l = chunksAux bs f₂ l := by
  intro f₁
  induction f₁ with
  | zero =>
    intro f₂ l h1 _
    have hl : l = [] := List.eq_nil_of_length_eq_zero (Nat.le_zero.mp h1)
    subst hl
    cases f₂ <;> rfl
  | succ n ih =>
    intro f₂ l h1 h2
    cases l with
    | nil => cases f₂ <;> rfl
    | cons x xs =>
      cases f₂ with
      | zero => simp at h2
      | succ m =>
        show (x :: xs).take bs :: chunksAux bs n ((x :: xs).drop bs)
            = (x :: xs).take bs :: chunksAux bs m ((x :: xs).drop bs)
        have hd : ((x :: xs).drop bs).length = (x :: xs).length - bs :=
          List.length_drop ..
        simp only [List.length_cons] at h1 h2 hd
        congr 1
        exact ih m _ (by omega) (by omega)

theorem chunks_nil (bs : Nat) : chunks bs ([] : List α) = [] := by
  unfold chunks
  cases Nat.decEq bs 0 <;> simp [chunksAux]

theorem chunks_cons (bs : Nat) (hbs : bs ≠ 0) (x : α) (xs : List α) :
    chunks bs (x :: xs) = (x :: xs).take bs :: chunks bs ((x :: xs).drop bs) := by
  unfold chunks
  simp only [hbs, if_false]
  show (x :: xs).take bs :: chunksAux bs xs.length ((x :: xs).drop bs)
      = (x :: xs).take bs :: chunksAux bs ((x :: xs).drop bs).length ((x :: xs).drop bs)
  congr 1
  have hd : ((x :: xs).drop bs).length = (x :: xs).length - bs := List.length_drop ..
  exact chunksAux_congr bs hbs _ _ _ (by simp only [List.length_cons] at hd ⊢; omega)
    (Nat.le_refl _)

/-- Ceiling-division recurrence used to count batches. -/
theorem ceil_div_succ (bs n : Nat) (hbs : bs ≠ 0) (hn : 0 < n) :
    (n + bs - 1) / bs = ((n - bs) + bs - 1) / bs + 1 := by
  rcases Nat.le_total n bs with hle | hle
  · have h1 : n + bs - 1 = (n - 1) + bs := by omega
    have h2 : n - bs = 0 := by omega
    rw [h1, Nat.add_div_right _ (Nat.pos_of_ne_zero hbs), h2]
    have h3 : (n - 1) / bs = 0 := Nat.div_eq_of_lt (by omega)
    have h4 : (0 + bs - 1) / bs = 0 := Nat.div_eq_of_lt (by omega)
    rw [h3, h4]
  · have h1 : n + bs - 1 = (n - 1) + bs := by omega
    have h2 : (n - bs) + bs - 1 = n - 1 := by omega
    rw [h1, Nat.add_div_right _ (Nat.pos_of_ne_zero hbs), h2]

theorem chunksAux_eq_range (bs : Nat) (hbs : bs ≠ 0) :
    ∀ (fuel : Nat) (l : List α), l.length ≤ fuel →
      chunksAux bs fuel l = (List.range ((l.length + bs - 1) / bs)).map
        (fun i => (l.drop (i * bs)).take bs) := by
  intro fuel
  induction fuel with
  | zero =>
    intro l h1
    have hl : l = [] := List.eq_nil_of_length_eq_zero (Nat.le_zero.mp h1)
    subst hl
    have hz : (bs - 1) / bs = 0 := Nat.div_eq_of_lt (by omega)
    simp [chunksAux, hz]
  | succ n ih =>
    intro l h1
    cases l with
    | nil =>
      have hz : (bs - 1) / bs = 0 := Nat.div_eq_of_lt (by omega)
      simp [chunksAux, hz]
    | cons x xs =>
      show (x :: xs).take bs :: chunksAux bs n ((x :: xs).drop bs) = _
      have hlen : ((x :: xs).drop bs).length = (x :: xs).length - bs :=
        List.length_drop ..
      rw [ih ((x :: xs).drop bs) (by simp only [List.length_cons] at h1 hlen ⊢; omega)]
      rw [hlen]
      have hpos : 0 < (x :: xs).length := by simp
      rw [ceil_div_succ bs _ hbs hpos, List.range_succ_eq_map, List.map_cons,
        List.map_map]
      congr 1
      · simp
      · apply List.map_congr_left
        intro i _
        show (((x :: xs).drop bs).drop (i * bs)).take bs
            = ((x :: xs).drop ((i + 1) * bs)).take bs
        rw [List.drop_drop]
        congr 2
        ring

theorem chunks_eq_range (bs : Nat) (hbs : bs ≠ 0) (l : List α) :
    chunks bs l = (List.range ((l.length + bs - 1) / bs)).map
      (fun i => (l.drop (i * bs)).take bs) := by
  unfold chunks
  simp only [hbs, if_false]
  exact chunksAux_eq_range bs hbs _ l (Nat.le_refl _)

theorem chunksAux_flatten (bs : Nat) (hbs : bs ≠ 0) :
    ∀ (fuel : Nat) (l : List α), l.length ≤ fuel →
      (chunksAux bs fuel l).flatten = l := by
  intro fuel
  induction fuel with
  | zero =>
    intro l h1
    have hl : l = [] := List.eq_nil_of_length_eq_zero (Nat.le_zero.mp h1)
    subst hl
    rfl
  | succ n ih =>
    intro l h1
    cases l with
    | nil => rfl
    | cons x xs =>
      show ((x :: xs).take bs :: chunksAux bs n ((x :: xs).drop bs)).flatten = _
      have hlen : ((x :: xs).drop bs).length = (x :: xs).length - bs :=
        List.length_drop ..
      rw [List.flatten_cons,
        ih ((x :: xs).drop bs) (by simp only [List.length_cons] at h1 hlen ⊢; omega),
        List.take_append_drop]

theorem chunks_flatten (bs : Nat) (hbs : bs ≠ 0) (l : List α) :
    (chunks bs l).flatten = l := by
  unfold chunks
  simp only [hbs, if_false]
  exact chunksAux_flatten bs hbs _ l (Nat.le_refl _)

theorem zip_drop : ∀ (l1 : List α) (l2 : List β) (n : Nat),
    (l1.zip l2).drop n = (l1.drop n).zip (l2.drop n) := by
  intro l1
  induction l1 with
  | nil => intro l2 n; simp
  | cons x xs ih =>
    intro l2 n
    cases l2 with
    | nil => simp
    | cons y ys =>
      cases n with
      | zero => rfl
      | succ m => simpa using ih ys m

theorem zip_take : ∀ (l1 : List α) (l2 : List β) (n : Nat),
    (l1.zip l2).take n = (l1.take n).zip (l2.take n) := by
  intro l1
  induction l1 with
  | nil => intro l2 n; simp
  | cons x xs ih =>
    intro l2 n
    cases l2 with
    | nil => simp
    | cons y ys =>
      cases n with
      | zero => rfl
      | succ m => simpa using ih ys m

/-- The batch stream, for equal first dimensions and a positive batch size,
is exactly the closed form `batchesSpec`. -/
theorem make_batch_stream_ok (X : List (List α)) (y : List α) (bs : Int)
    (hbs : 0 < bs) (hlen : X.length = y.length) :
    make_batch_stream X y bs = .ok (batchesSpec X y bs.toNat) := by
  have hb0 : bs.toNat ≠ 0 := by omega
  have hnotle : ¬ bs ≤ 0 := by omega
  unfold make_batch_stream
  simp only [hlen, ne_eq, not_true_eq_false, if_false, hnotle]
  congr 1
  rw [chunks_eq_range bs.toNat hb0]
  have hzl : (X.zip y).length = X.length := by
    rw [List.length_zip, hlen, Nat.min_self]
  unfold batchesSpec
  rw [hzl, List.map_map]
  apply List.map_congr_left
  intro i _
  show Batch.mk ((((X.zip y).drop (i * bs.toNat)).take bs.toNat).map Prod.fst)
      ((((X.zip y).drop (i * bs.toNat)).take bs.toNat).map Prod.snd) = _
  rw [zip_drop, zip_take]
  have hl1 : ((X.drop (i * bs.toNat)).take bs.toNat).length
      = ((y.drop (i * bs.toNat)).take bs.toNat).length := by
    simp [List.length_take, List.length_drop, hlen]
  rw [List.map_fst_zip _ _ (Nat.le_of_eq hl1),
    List.map_snd_zip _ _ (Nat.le_of_eq hl1.symm)]

/-- Joining the feature blocks of the stream recovers the feature rows. -/
theorem stream_flatten_X (X : List (List α)) (y : List α) (bs : Int)
    (hbs : 0 < bs) (hlen : X.length = y.length) :
    ((batchesSpec X y bs.toNat).map Batch.X).flatten = X := by
  have hb0 : bs.toNat ≠ 0 := by omega
  have hok := make_batch_stream_ok X y bs hbs hlen
  unfold make_batch_stream at hok
  have hnotle : ¬ bs ≤ 0 := by omega
  simp only [hlen, ne_eq, not_true_eq_false, if_false, hnotle, Except.ok.injEq] at hok
  rw [← hok, List.map_map]
  have hmap : ((chunks bs.toNat (X.zip y)).map
      (Batch.X ∘ fun c => Batch.mk (c.map Prod.fst) (c.map Prod.snd)))
      = (chunks bs.toNat (X.zip y)).map (List.map Prod.fst) := rfl
  rw [hmap, ← List.map_flatten, chunks_flatten bs.toNat hb0,
    List.map_fst_zip _ _ (by omega)]

/-- Joining the label blocks of the stream recovers the labels. -/
theorem stream_flatten_y (X : List (List α)) (y : List α) (bs : Int)
    (hbs : 0 < bs) (hlen : X.length = y.length) :
    ((batchesSpec X y bs.toNat).map Batch.y).flatten = y := by
  have hb0 : bs.toNat ≠ 0 := by omega
  have hok := make_batch_stream_ok X y bs hbs hlen
  unfold make_batch_stream at hok
  have hnotle : ¬ bs ≤ 0 := by omega
  simp only [hlen, ne_eq, not_true_eq_false, if_false, hnotle, Except.ok.injEq] at hok
  rw [← hok, List.map_map]
  have hmap : ((chunks bs.toNat (X.zip y)).map
      (Batch.y ∘ fun c => Batch.mk (c.map Prod.fst) (c.map Prod.snd)))
      = (chunks bs.toNat (X.zip y)).map (List.map Prod.snd) := rfl
  rw [hmap, ← List.map_flatten, chunks_flatten bs.toNat hb0,
    List.map_snd_zip _ _ (by omega)]

/- ===================== Claims C1 and C6 ===================== -/

/-- C1 (counterexample): with N = 100 examples and batchSize = 30 the stream
built by `make_batch_stream` yields 4 batches, not the 3 batches the claim
demands — the 10 remainder rows are kept as a final shorter batch, not
dropped. -/
theorem c1_counterexample :
    streamNumBatches (make_batch_stream ((List.range 100).map (fun i => [i]))
      (List.range 100) 30) = 4 ∧
    streamNumBatches (make_batch_stream ((List.range 100).map (fun i => [i]))
      (List.range 100) 30) ≠ 3 := by
  constructor
  · decide
  · decide

/-- C1 (amended): for every dataset with as many labels as feature rows and
every positive batchSize, `make_batch_stream` splits the N examples, in
original row order, into ceil(N/batchSize) consecutive batches: batch `i`
holds rows `i*batchSize … i*batchSize + batchSize - 1`, so the first
floor(N/batchSize) batches have exactly batchSize rows and, when batchSize
does not divide N, a final batch keeps the N mod batchSize remainder rows —
nothing is dropped.  Flattening the stream recovers the dataset exactly.  In
particular with N=100 and batchSize=30 the stream yields 4 batches, not 3. -/
theorem c1_batch_stream_keeps_remainder (α : Type) (X : List (List α))
    (y : List α) (bs : Int) (hbs : 0 < bs) (hlen : X.length = y.length) :
    make_batch_stream X y bs = .ok (batchesSpec X y bs.toNat) ∧
    (batchesSpec X y bs.toNat).length = (X.length + bs.toNat - 1) / bs.toNat ∧
    ((batchesSpec X y bs.toNat).map Batch.X).flatten = X ∧
    ((batchesSpec X y bs.toNat).map Batch.y).flatten = y ∧
    ∀ i (hi : i < (batchesSpec X y bs.toNat).length),
      ((batchesSpec X y bs.toNat).get ⟨i, hi⟩).X.length
        = min bs.toNat (X.length - i * bs.toNat) := by
  refine ⟨make_batch_stream_ok X y bs hbs hlen, ?_,
    stream_flatten_X X y bs hbs hlen, stream_flatten_y X y bs hbs hlen, ?_⟩
  · simp [batchesSpec]
  · intro i hi
    simp [batchesSpec, List.length_take, List.length_drop]

/-- Witness for the amended C1: three one-column rows batched with
batchSize 2 give a full batch of 2 rows and a remainder batch of 1 row. -/
theorem c1_witness :
    make_batch_stream [[0], [1], [2]] ([0, 1, 2] : List ℕ) 2
      = .ok (batchesSpec [[0], [1], [2]] [0, 1, 2] 2) :=
  (c1_batch_stream_keeps_remainder ℕ [[0], [1], [2]] [0, 1, 2] 2
    (by decide) (by decide)).1

/-- C6 (counterexample): with N = 2 examples and batchSize = 5 > N the stream
yields one batch (holding all the rows), not the zero batches the claim
demands. -/
theorem c6_counterexample :
    streamNumBatches (make_batch_stream [[1], [2]] ([1, 2] : List ℕ) 5) = 1 ∧
    streamNumBatches (make_batch_stream [[1], [2]] ([1, 2] : List ℕ) 5) ≠ 0 := by
  constructor
  · decide
  · decide

/-- C6 (amended): `make_batch_stream` with batchSize ≤ 0 fails with
TensorFlow's invalid-batch-size error, and with batchSize > N it does not
fail: it yields exactly one batch holding all N rows when N ≥ 1, and zero
batches only when the dataset is empty. -/
theorem c6_batch_size_validation (α : Type) (X : List (List α)) (y : List α)
    (bs : Int) (hlen : X.length = y.length) :
    (bs ≤ 0 → make_batch_stream X y bs
      = .error "InvalidArgumentError: Batch size must be greater than zero") ∧
    (0 < bs → (X.length : Int) < bs → X ≠ [] →
      make_batch_stream X y bs = .ok [⟨X, y⟩]) ∧
    (0 < bs → X = [] → make_batch_stream X y bs = .ok []) := by
  refine ⟨?_, ?_, ?_⟩
  · intro hle
    unfold make_batch_stream
    simp [hlen, hle]
  · intro hbs hlt hne
    rw [make_batch_stream_ok X y bs hbs hlen]
    have hXpos : 0 < X.length := List.length_pos.mpr hne
    have hnb : (X.length + bs.toNat - 1) / bs.toNat = 1 := by
      have h1 : X.length + bs.toNat - 1 = (X.length - 1) + bs.toNat := by omega
      rw [h1, Nat.add_div_right _ (by omega)]
      have h2 : (X.length - 1) / bs.toNat = 0 := Nat.div_eq_of_lt (by omega)
      rw [h2]
    unfold batchesSpec
    rw [hnb]
    have htX : X.take bs.toNat = X := List.take_of_length_le (by omega)
    have hty : y.take bs.toNat = y := List.take_of_length_le (by omega)
    have hr : List.range 1 = [0] := by decide
    simp [hr, htX, hty]
  · intro hbs hX
    have hy : y = [] := by
      rw [hX] at hlen
      exact List.eq_nil_of_length_eq_zero hlen.symm
    subst hX
    subst hy
    unfold make_batch_stream
    have hnotle : ¬ bs ≤ 0 := by omega
    simp [hnotle, chunks_nil]

/-- Witness for the amended C6: batchSize 5 over 2 examples yields a single
batch containing both rows, and batchSize -1 is rejected. -/
theorem c6_witness :
    make_batch_stream [[1], [2]] ([1, 2] : List ℕ) 5
      = .ok [⟨[[1], [2]], [1, 2]⟩] :=
  (c6_batch_size_validation ℕ [[1], [2]] [1, 2] 5 (by decide)).2.1
    (by decide) (by decide) (by decide)

/- ===================== Lemmas about the training loops ===================== -/

/-- The inner batch loop of `sgd_jax` acts componentwise: the
`(total_steps, opt_state)` pair evolves by `stepPair`, the loop variable
`batch` by rebinding, and `params` / `loss_history` are untouched. -/
theorem sgd_jax_fold_state (grad_loss : P → B → G) (opt : Optimizer P S G) :
    ∀ (stream : List B) (st : SgdJaxState P S B L),
      stream.foldl (sgd_jax_step grad_loss opt) st
        = ⟨(stream.foldl (stepPair grad_loss opt) (st.total_steps, st.opt_state)).1,
           (stream.foldl (stepPair grad_loss opt) (st.total_steps, st.opt_state)).2,
           stream.foldl (fun _ b => some b) st.batch,
           st.params, st.loss_history⟩ := by
  intro stream
  induction stream with
  | nil => intro st; rfl
  | cons b t ih =>
    intro st
    simp only [List.foldl_cons]
    rw [ih]
    rfl

/-- Folding "remember the last element" over a nonempty list yields its last
element. -/
theorem foldl_some_last : ∀ (s : List B) (h : s ≠ []) (a : Option B),
    s.foldl (fun _ b => some b) a = some (s.getLast h) := by
  intro s
  induction s with
  | nil => intro h; exact absurd rfl h
  | cons x xs ih =>
    intro h a
    cases xs with
    | nil => rfl
    | cons z zs =>
      simp only [List.foldl_cons]
      rw [show ((x :: z :: zs).getLast h) = ((z :: zs).getLast (by simp)) from
        List.getLast_cons _]
      exact ih (by simp) (some x)

/-- One `sgd_jax` epoch over a nonempty stream never fails: it advances the
`(total_steps, opt_state)` pair through every batch, rebinds `params`, and
appends the loss of the new parameters on the last batch of the stream. -/
theorem sgd_jax_epoch_ok (loss_fn : P → B → L) (grad_loss : P → B → G)
    (opt : Optimizer P S G) (stream : List B) (h : stream ≠ [])
    (st : SgdJaxState P S B L) :
    sgd_jax_epoch loss_fn grad_loss opt stream st
      = .ok ⟨(stream.foldl (stepPair grad_loss opt) (st.total_steps, st.opt_state)).1,
             (stream.foldl (stepPair grad_loss opt) (st.total_steps, st.opt_state)).2,
             some (stream.getLast h),
             opt.get_params
               (stream.foldl (stepPair grad_loss opt) (st.total_steps, st.opt_state)).2,
             st.loss_history ++ [loss_fn
               (opt.get_params
                 (stream.foldl (stepPair grad_loss opt) (st.total_steps, st.opt_state)).2)
               (stream.getLast h)]⟩ := by
  unfold sgd_jax_epoch
  rw [sgd_jax_fold_state grad_loss opt stream st, foldl_some_last stream h st.batch]

/-- An `sgd_jax` epoch over an empty stream fails with the `NameError` for the
unbound loop variable `batch`, provided `batch` was never bound before. -/
theorem sgd_jax_epoch_err (loss_fn : P → B → L) (grad_loss : P → B → G)
    (opt : Optimizer P S G) (st : SgdJaxState P S B L) (hb : st.batch = none) :
    sgd_jax_epoch loss_fn grad_loss opt ([] : List B) st
      = .error "NameError: name batch is not defined" := by
  unfold sgd_jax_epoch
  simp only [List.foldl_nil, hb]

/-- Full characterization of the `sgd_jax` epoch iteration over a nonempty
stream: after `k` epochs the run is in the state described by `optIterate`,
with one recorded loss per finished epoch, each being the loss of the
post-epoch parameters on the last batch of the stream. -/
theorem sgd_jax_run_ok (loss_fn : P → B → L) (grad_loss : P → B → G)
    (opt : Optimizer P S G) (stream : List B) (params : P) (h : stream ≠ []) :
    ∀ k : Nat,
      ((List.range k).foldlM
        (fun st _ => sgd_jax_epoch loss_fn grad_loss opt stream st)
        (⟨0, opt.opt_init params, none, params, []⟩ : SgdJaxState P S B L)
        : Except String _)
      = .ok ⟨(optIterate grad_loss opt stream params k).1,
             (optIterate grad_loss opt stream params k).2,
             if k = 0 then none else some (stream.getLast h),
             if k = 0 then params
               else opt.get_params (optIterate grad_loss opt stream params k).2,
             (List.range k).map (fun e =>
               loss_fn (opt.get_params (optIterate grad_loss opt stream params (e + 1)).2)
                 (stream.getLast h))⟩ := by
  intro k
  induction k with
  | zero => rfl
  | succ n ih =>
    rw [List.range_succ, List.foldlM_append, ih]
    show sgd_jax_epoch loss_fn grad_loss opt stream _ >>= _ = _
    rw [sgd_jax_epoch_ok loss_fn grad_loss opt stream h]
    show Except.ok _ = Except.ok _
    have hpair : (stream.foldl (stepPair grad_loss opt)
        ((optIterate grad_loss opt stream params n).1,
         (optIterate grad_loss opt stream params n).2))
        = optIterate grad_loss opt stream params (n + 1) := by
      rw [Prod.mk.eta]
      rfl
    rw [hpair]
    simp [List.map_append]

/-- With an empty stream and at least one epoch, `sgd_jax` fails with the
`NameError` for the unbound loop variable `batch`. -/
theorem sgd_jax_run_err (loss_fn : P → B → L) (grad_loss : P → B → G)
    (opt : Optimizer P S G) (params : P) (me : Nat) (hme : 1 ≤ me) :
    sgd_jax params loss_fn grad_loss ([] : List B) me opt
      = .error "NameError: name batch is not defined" := by
  obtain ⟨k, rfl⟩ : ∃ k, me = k + 1 := ⟨me - 1, by omega⟩
  unfold sgd_jax
  rw [List.range_succ_eq_map]
  rw [List.foldlM_cons]
  rw [sgd_jax_epoch_err loss_fn grad_loss opt _ rfl]
  rfl

/-- Convenient closed form of a full `sgd_jax` run over a nonempty stream. -/
theorem sgd_jax_eq_ok (loss_fn : P → B → L) (grad_loss : P → B → G)
    (opt : Optimizer P S G) (stream : List B) (params : P) (h : stream ≠ [])
    (me : Nat) :
    sgd_jax params loss_fn grad_loss stream me opt
      = .ok ((if me = 0 then params
              else opt.get_params (optIterate grad_loss opt stream params me).2),
             (List.range me).map (fun e =>
               loss_fn (opt.get_params (optIterate grad_loss opt stream params (e + 1)).2)
                 (stream.getLast h))) := by
  unfold sgd_jax
  rw [sgd_jax_run_ok loss_fn grad_loss opt stream params h me]
  rfl

/-- The inner batch loop of `sgd` updates the parameter component exactly like
the bare recurrence `params := params - lr * grad`. -/
theorem sgd_fold_params (loss_fn : List ℚ → B → ℚ)
    (grad_loss_fn : List ℚ → B → List ℚ) (lr : ℚ) :
    ∀ (stream : List B) (st : SgdState),
      (stream.foldl (sgd_batch_step loss_fn grad_loss_fn lr) st).params
        = stream.foldl (sgdStep grad_loss_fn lr) st.params := by
  intro stream
  induction stream with
  | nil => intro st; rfl
  | cons b t ih =>
    intro st
    simp only [List.foldl_cons]
    rw [ih]
    rfl

/-- Over a nonempty stream, the inner batch loop of `sgd` ends with
`batch_loss` bound to the loss of the final parameters on the last batch. -/
theorem sgd_fold_nonempty (loss_fn : List ℚ → B → ℚ)
    (grad_loss_fn : List ℚ → B → List ℚ) (lr : ℚ) :
    ∀ (stream : List B) (h : stream ≠ []) (st : SgdState),
      stream.foldl (sgd_batch_step loss_fn grad_loss_fn lr) st
        = ⟨stream.foldl (sgdStep grad_loss_fn lr) st.params,
           some (loss_fn (stream.foldl (sgdStep grad_loss_fn lr) st.params)
             (stream.getLast h))⟩ := by
  intro stream
  induction stream with
  | nil => intro h; exact absurd rfl h
  | cons x xs ih =>
    intro h st
    cases xs with
    | nil => rfl
    | cons z zs =>
      rw [show ((x :: z :: zs).getLast h) = ((z :: zs).getLast (by simp)) from
        List.getLast_cons _]
      show (z :: zs).foldl (sgd_batch_step loss_fn grad_loss_fn lr)
        (sgd_batch_step loss_fn grad_loss_fn lr st x) = _
      rw [ih (by simp) (sgd_batch_step loss_fn grad_loss_fn lr st x)]
      rfl

/-- One `sgd` epoch over a nonempty stream never fails. -/
theorem sgd_epoch_ok (loss_fn : List ℚ → B → ℚ)
    (grad_loss_fn : List ℚ → B → List ℚ) (stream : List B) (h : stream ≠ [])
    (lr : ℚ) (pe e : Nat) (st : SgdState) :
    sgd_epoch loss_fn grad_loss_fn stream lr pe e st
      = .ok ⟨stream.foldl (sgdStep grad_loss_fn lr) st.params,
             some (loss_fn (stream.foldl (sgdStep grad_loss_fn lr) st.params)
               (stream.getLast h))⟩ := by
  unfold sgd_epoch
  rw [sgd_fold_nonempty loss_fn grad_loss_fn lr stream h st]
  split
  · rfl
  · rfl

/-- Epoch 0 of `sgd` over an empty stream fails: the print at epoch 0 reads
the never-bound `batch_loss`. -/
theorem sgd_epoch_err (loss_fn : List ℚ → B → ℚ)
    (grad_loss_fn : List ℚ → B → List ℚ) (lr : ℚ) (pe : Nat) (st : SgdState)
    (hb : st.batch_loss = none) :
    sgd_epoch loss_fn grad_loss_fn ([] : List B) lr pe 0 st
      = .error "NameError: name batch_loss is not defined" := by
  unfold sgd_epoch
  simp [hb]

/-- Full characterization of the `sgd` epoch iteration over a nonempty
stream. -/
theorem sgd_run_ok (loss_fn : List ℚ → B → ℚ)
    (grad_loss_fn : List ℚ → B → List ℚ) (stream : List B) (h : stream ≠ [])
    (lr : ℚ) (pe : Nat) (p : List ℚ) :
    ∀ k : Nat,
      ((List.range k).foldlM
        (fun st e => sgd_epoch loss_fn grad_loss_fn stream lr pe e st)
        (⟨p, none⟩ : SgdState) : Except String _)
      = .ok ⟨sgdIterate grad_loss_fn lr stream p k,
             if k = 0 then none
               else some (loss_fn (sgdIterate grad_loss_fn lr stream p k)
                 (stream.getLast h))⟩ := by
  intro k
  induction k with
  | zero => rfl
  | succ n ih =>
    rw [List.range_succ, List.foldlM_append, ih]
    show sgd_epoch loss_fn grad_loss_fn stream lr pe n _ >>= _ = _
    rw [sgd_epoch_ok loss_fn grad_loss_fn stream h lr pe n]
    simp
    exact ⟨rfl, rfl⟩

/-- With an empty stream and at least one epoch, `sgd` fails with the
`NameError` for the unbound `batch_loss`. -/
theorem sgd_run_err (loss_fn : List ℚ → B → ℚ)
    (grad_loss_fn : List ℚ → B → List ℚ) (p : List ℚ) (me : Nat)
    (hme : 1 ≤ me) (lr : ℚ) :
    sgd p loss_fn grad_loss_fn ([] : List B) me lr
      = .error "NameError: name batch_loss is not defined" := by
  obtain ⟨k, rfl⟩ : ∃ k, me = k + 1 := ⟨me - 1, by omega⟩
  show Except.map (fun st => st.params)
      ((List.range (k + 1)).foldlM
        (fun st epoch => sgd_epoch loss_fn grad_loss_fn [] lr (max 1 ((k + 1) / 10)) epoch st)
        (⟨p, none⟩ : SgdState))
      = _
  rw [List.range_succ_eq_map, List.foldlM_cons,
    sgd_epoch_err loss_fn grad_loss_fn lr _ _ rfl]
  rfl

/-- Closed form of a full `sgd` run over a nonempty stream. -/
theorem sgd_eq_ok (loss_fn : List ℚ → B → ℚ)
    (grad_loss_fn : List ℚ → B → List ℚ) (stream : List B) (h : stream ≠ [])
    (p : List ℚ) (me : Nat) (lr : ℚ) :
    sgd p loss_fn grad_loss_fn stream me lr
      = .ok (sgdIterate grad_loss_fn lr stream p me) := by
  show Except.map (fun st => st.params)
      ((List.range me).foldlM
        (fun st epoch => sgd_epoch loss_fn grad_loss_fn stream lr (max 1 (me / 10)) epoch st)
        (⟨p, none⟩ : SgdState))
      = _
  rw [sgd_run_ok loss_fn grad_loss_fn stream h lr (max 1 (me / 10)) p me]
  rfl

/-- With the plain-SGD optimizer and a constant schedule, the
`(total_steps, opt_state)` fold of `sgd_jax` carries exactly the minimal SGD
recurrence in its state component. -/
theorem plain_fold_snd (grad_loss_fn : List ℚ → B → List ℚ) (lr : ℚ) :
    ∀ (stream : List B) (a : Nat × List ℚ),
      (stream.foldl (stepPair grad_loss_fn (sgdOptimizer (constant lr))) a).2
        = stream.foldl (sgdStep grad_loss_fn lr) a.2 := by
  intro stream
  induction stream with
  | nil => intro a; rfl
  | cons b t ih =>
    intro a
    simp only [List.foldl_cons]
    rw [ih]
    rfl

/-- With the plain-SGD optimizer, `optIterate` computes the minimal SGD
parameter iteration. -/
theorem plain_optIterate (grad_loss_fn : List ℚ → B → List ℚ) (lr : ℚ)
    (stream : List B) (p : List ℚ) :
    ∀ k, (optIterate grad_loss_fn (sgdOptimizer (constant lr)) stream p k).2
      = sgdIterate grad_loss_fn lr stream p k := by
  intro k
  induction k with
  | zero => rfl
  | succ n ih =>
    show (stream.foldl (stepPair grad_loss_fn (sgdOptimizer (constant lr)))
      (optIterate grad_loss_fn (sgdOptimizer (constant lr)) stream p n)).2 = _
    rw [plain_fold_snd, ih]
    rfl

/-- The batch-recording instrumentation appends the consumed batches in
order. -/
theorem batchRecorder_fold (B : Type) :
    ∀ (s : List B) (a : Nat × List B),
      s.foldl (stepPair (fun _ b => b) (batchRecorder B)) a
        = (a.1 + s.length, a.2 ++ s) := by
  intro s
  induction s with
  | nil => intro a; simp
  | cons b t ih =>
    intro a
    simp only [List.foldl_cons]
    rw [ih]
    have h1 : stepPair (fun _ b => b) (batchRecorder B) a b = (a.1 + 1, a.2 ++ [b]) := rfl
    rw [h1]
    simp only [Prod.mk.injEq, List.length_cons]
    exact ⟨by omega, by simp⟩

/-- The index-recording instrumentation appends the consecutive iteration
indices the loop passes to `opt_update`. -/
theorem indexRecorder_fold (B : Type) :
    ∀ (s : List B) (a : Nat × List Nat),
      s.foldl (stepPair (fun _ _ => ()) (indexRecorder Unit)) a
        = (a.1 + s.length, a.2 ++ List.range' (a.1 + 1) s.length) := by
  intro s
  induction s with
  | nil => intro a; simp
  | cons b t ih =>
    intro a
    simp only [List.foldl_cons, List.length_cons]
    rw [ih]
    show (a.1 + 1 + t.length, (a.2 ++ [a.1 + 1]) ++ List.range' (a.1 + 1 + 1) t.length)
      = (a.1 + (t.length + 1), a.2 ++ List.range' (a.1 + 1) (t.length + 1))
    rw [List.range'_succ]
    simp only [Prod.mk.injEq]
    refine ⟨by omega, ?_⟩
    simp [List.append_assoc]

/-- Over a whole run, the index-recording optimizer collects exactly
`1, 2, …, k * (number of batches)`. -/
theorem indexRecorder_optIterate (B : Type) (s : List B) :
    ∀ k, optIterate (fun _ _ => ()) (indexRecorder Unit) s ([] : List Nat) k
      = (k * s.length, List.range' 1 (k * s.length)) := by
  intro k
  induction k with
  | zero => simp [optIterate, indexRecorder]
  | succ n ih =>
    show s.foldl (stepPair (fun _ _ => ()) (indexRecorder Unit))
      (optIterate (fun _ _ => ()) (indexRecorder Unit) s [] n) = _
    rw [ih, indexRecorder_fold]
    show (n * s.length + s.length,
        List.range' 1 (n * s.length) ++ List.range' (n * s.length + 1) s.length)
      = ((n + 1) * s.length, List.range' 1 ((n + 1) * s.length))
    have h2 : List.range' 1 (n * s.length) ++ List.range' (n * s.length + 1) s.length
        = List.range' 1 ((n + 1) * s.length) := by
      rw [(by ring : n * s.length + 1 = 1 + 1 * (n * s.length)), List.range'_append]
      congr 1
      ring
    rw [h2, (by ring : n * s.length + s.length = (n + 1) * s.length)]

/- ===================== Claims C2, C3, C5, C7, C8, C10 ===================== -/

/-- C5 (confirmed): with `maxEpochs = 0` both training loops return the
initial parameters unchanged; `sgd_jax` pairs them with an empty loss history
(`sgd` returns only the parameter 1-tuple). -/
theorem c5_zero_epochs_identity {P S G B L : Type} (params : P)
    (loss_fn : P → B → L) (grad_loss : P → B → G) (stream : List B)
    (opt : Optimizer P S G) (paramsQ : List ℚ) (loss_fnQ : List ℚ → B → ℚ)
    (grad_loss_fnQ : List ℚ → B → List ℚ) (lr : ℚ) :
    sgd_jax params loss_fn grad_loss stream 0 opt = .ok (params, []) ∧
    sgd paramsQ loss_fnQ grad_loss_fnQ stream 0 lr = .ok paramsQ :=
  ⟨rfl, rfl⟩

/-- C2 (confirmed): over a nonempty batch stream and at least one epoch,
`sgd_jax` appends exactly one loss value per epoch, and the value recorded for
epoch `e` is the loss function evaluated at the parameters extracted after
epoch `e` on the last batch of the stream — the last batch processed in that
epoch — not any average. -/
theorem c2_epoch_loss_is_last_batch {P S G B L : Type} (params : P)
    (loss_fn : P → B → L) (grad_loss : P → B → G) (stream : List B)
    (me : Nat) (opt : Optimizer P S G) (h1 : stream ≠ []) (h2 : 1 ≤ me) :
    sgd_jax params loss_fn grad_loss stream me opt
      = .ok (opt.get_params (optIterate grad_loss opt stream params me).2,
             (List.range me).map (fun e =>
               loss_fn (opt.get_params
                   (optIterate grad_loss opt stream params (e + 1)).2)
                 (stream.getLast h1))) := by
  rw [sgd_jax_eq_ok loss_fn grad_loss opt stream params h1 me]
  have hne : me ≠ 0 := by omega
  simp [hne]

/-- Witness for C2: one epoch over the single-batch stream `[7]`. -/
theorem c2_witness :
    sgd_jax (0 : ℚ) (fun p _ => p + 1) (fun _ b => b) [(7 : ℚ)] 1 addOptimizer
      = .ok (addOptimizer.get_params
               (optIterate (fun _ b => b) addOptimizer [(7 : ℚ)] 0 1).2,
             (List.range 1).map (fun e =>
               (addOptimizer.get_params
                   (optIterate (fun _ b => b) addOptimizer [(7 : ℚ)] 0 (e + 1)).2)
                 + 1)) :=
  c2_epoch_loss_is_last_batch 0 (fun p _ => p + 1) (fun _ b => b) [(7 : ℚ)] 1
    addOptimizer (by simp) (by omega)

/-- C3 (confirmed): for every initial parameter vector, loss function,
gradient function, batch stream, epoch count and learning rate, running
`sgd_jax` with the plain-SGD optimizer triple at a constant learning rate
produces exactly the outcome of the minimal hand-written SGD loop `sgd` over
the same batches in the same order: the final parameter vectors agree (and
the two loops fail together on an empty stream). -/
theorem c3_sgd_jax_refines_plain_sgd {B : Type} (params : List ℚ)
    (loss_fn : List ℚ → B → ℚ) (grad_loss_fn : List ℚ → B → List ℚ)
    (stream : List B) (me : Nat) (lr : ℚ) :
    ((sgd_jax params loss_fn grad_loss_fn stream me
        (sgdOptimizer (constant lr))).map Prod.fst).toOption
      = (sgd params loss_fn grad_loss_fn stream me lr).toOption := by
  by_cases hs : stream = []
  · subst hs
    cases me with
    | zero => rfl
    | succ n =>
      rw [sgd_jax_run_err loss_fn grad_loss_fn _ params (n + 1) (by omega),
        sgd_run_err loss_fn grad_loss_fn params (n + 1) (by omega) lr]
      rfl
  · rw [sgd_jax_eq_ok loss_fn grad_loss_fn _ stream params hs me,
      sgd_eq_ok loss_fn grad_loss_fn stream hs params me lr]
    cases me with
    | zero => rfl
    | succ n =>
      have hplain := plain_optIterate grad_loss_fn lr stream params (n + 1)
      simp [hplain]
      rfl

/-- C7 (confirmed): `make_batch_stream` run twice on the same arguments
produces identical batch sequences, and iterating the same stream value for
two epochs (observed through the batch-recording instrumentation of the
training loop) consumes the very same batch sequence twice, in order — no
reshuffling. -/
theorem c7_stream_restartable (α : Type) (X : List (List α)) (y : List α)
    (bs : Int) (s1 s2 : List (Batch α))
    (h1 : make_batch_stream X y bs = .ok s1)
    (h2 : make_batch_stream X y bs = .ok s2) :
    s1 = s2 ∧ (s1 ≠ [] → consumedBatches s1 2 = .ok (s1 ++ s1)) := by
  refine ⟨Except.ok.inj (h1.symm.trans h2), ?_⟩
  intro hne
  unfold consumedBatches
  rw [sgd_jax_eq_ok (fun _ _ => ()) (fun _ b => b) (batchRecorder (Batch α))
    s1 [] hne 2]
  have ho : optIterate (fun _ b => b) (batchRecorder (Batch α)) s1 [] 2
      = (0 + s1.length + s1.length, (([] : List (Batch α)) ++ s1) ++ s1) := by
    show s1.foldl (stepPair (fun _ b => b) (batchRecorder (Batch α)))
      (s1.foldl (stepPair (fun _ b => b) (batchRecorder (Batch α)))
        (optIterate (fun _ b => b) (batchRecorder (Batch α)) s1 [] 0)) = _
    rw [show optIterate (fun _ b => b) (batchRecorder (Batch α)) s1 [] 0
        = ((0 : Nat), ([] : List (Batch α))) from rfl,
      batchRecorder_fold, batchRecorder_fold]
  simp [ho]
  rfl

/-- Witness for C7: a one-batch stream from a one-row dataset, consumed twice
over two epochs. -/
theorem c7_witness :
    ([⟨[[1]], [1]⟩] : List (Batch ℕ)) = [⟨[[1]], [1]⟩] ∧
    (([⟨[[1]], [1]⟩] : List (Batch ℕ)) ≠ [] →
      consumedBatches ([⟨[[1]], [1]⟩] : List (Batch ℕ)) 2
        = .ok [⟨[[1]], [1]⟩, ⟨[[1]], [1]⟩]) :=
  c7_stream_restartable ℕ [[1]] [1] 1 [⟨[[1]], [1]⟩] [⟨[[1]], [1]⟩] rfl rfl

/-- C8 (confirmed): over any run of `sgd_jax` with a nonempty stream, the
iteration indices passed to the optimizer's step are exactly
`1, 2, …, maxEpochs * (batches per epoch)`: incremented once per batch, never
reset at epoch boundaries, and the `k`-th step call receives index `k`. -/
theorem c8_step_indices_global (B : Type) (stream : List B) (me : Nat)
    (h : stream ≠ []) :
    stepIndices stream me = .ok (List.range' 1 (me * stream.length)) ∧
    ∀ i (hi : i < (List.range' 1 (me * stream.length)).length),
      (List.range' 1 (me * stream.length)).get ⟨i, hi⟩ = i + 1 := by
  constructor
  · unfold stepIndices
    rw [sgd_jax_eq_ok (fun _ _ => ()) (fun _ _ => ()) (indexRecorder Unit)
      stream [] h me]
    cases me with
    | zero =>
      rw [Nat.zero_mul]
      rfl
    | succ n =>
      have hio := indexRecorder_optIterate B stream (n + 1)
      simp [hio]
      rfl
  · intro i hi
    rw [List.get_eq_getElem, List.getElem_range']
    have hv : ((⟨i, hi⟩ : Fin (List.range' 1 (me * stream.length)).length) : Nat) = i := rfl
    rw [hv]
    omega

/-- Witness for C8: two epochs over a one-batch stream feed indices 1 and 2. -/
theorem c8_witness :
    stepIndices [()] 2 = .ok [1, 2] :=
  (c8_step_indices_global Unit [()] 2 (by simp)).1

/-- C10 (confirmed): with a stream of zero batches and at least one epoch,
both training loops fail by reading a loop variable that was never bound —
`batch` in `sgd_jax` at the epoch-loss computation, `batch_loss` in `sgd` at
the epoch-0 print — rather than skipping the epoch or returning a result. -/
theorem c10_empty_stream_fails {P S G B L : Type} (params : P)
    (loss_fn : P → B → L) (grad_loss : P → B → G) (me : Nat)
    (opt : Optimizer P S G) (paramsQ : List ℚ) (loss_fnQ : List ℚ → B → ℚ)
    (grad_loss_fnQ : List ℚ → B → List ℚ) (lr : ℚ) (hme : 1 ≤ me) :
    sgd_jax params loss_fn grad_loss ([] : List B) me opt
      = .error "NameError: name batch is not defined" ∧
    sgd paramsQ loss_fnQ grad_loss_fnQ ([] : List B) me lr
      = .error "NameError: name batch_loss is not defined" :=
  ⟨sgd_jax_run_err loss_fn grad_loss opt params me hme,
   sgd_run_err loss_fnQ grad_loss_fnQ paramsQ me hme lr⟩

/-- Witness for C10: one epoch over the empty stream fails in both loops. -/
theorem c10_witness :
    sgd_jax (0 : ℚ) (fun p _ => p + 1) (fun _ b => b) ([] : List ℚ) 1 addOptimizer
      = .error "NameError: name batch is not defined" ∧
    sgd [(0 : ℚ)] (fun _ _ => 0) (fun p _ => p) ([] : List ℚ) 1 (1 : ℚ)
      = .error "NameError: name batch_loss is not defined" :=
  c10_empty_stream_fails 0 (fun p _ => p + 1) (fun _ b => b) 1 addOptimizer
    [(0 : ℚ)] (fun _ _ => 0) (fun p _ => p) 1 (by omega)

/- ===================== Lemmas about the objective model ===================== -/

/-- The notebook's tanh-based sigmoid equals the standard logistic function. -/
theorem sigmoid_eq (x : ℝ) : sigmoid x = 1 / (1 + Real.exp (-x)) := by
  have hx : Real.exp (-x) = Real.exp (-(x / 2)) * Real.exp (-(x / 2)) := by
    rw [← Real.exp_add]
    congr 1
    ring
  have hab : Real.exp (x / 2) * Real.exp (-(x / 2)) = 1 := by
    rw [← Real.exp_add]
    simp
  have hsum : (0:ℝ) < Real.exp (x / 2) + Real.exp (-(x / 2)) := by positivity
  have hden : (0:ℝ) < 1 + Real.exp (-(x / 2)) * Real.exp (-(x / 2)) := by positivity
  unfold sigmoid
  rw [Real.tanh_eq_sinh_div_cosh, Real.sinh_eq, Real.cosh_eq, hx]
  field_simp
  ring_nf at hab ⊢
  linear_combination Real.exp (x * (-1 / 2)) * hab

/-- Complement of the sigmoid. -/
theorem one_sub_sigmoid (x : ℝ) : 1 - sigmoid x = 1 / (1 + Real.exp x) := by
  rw [sigmoid_eq, Real.exp_neg]
  have h1 : (0:ℝ) < Real.exp x := Real.exp_pos x
  have h2 : (0:ℝ) < 1 + (Real.exp x)⁻¹ := by positivity
  have h3 : (0:ℝ) < 1 + Real.exp x := by positivity
  field_simp
  ring

/-- The sigmoid in its exp-quotient form. -/
theorem sigmoid_eq_exp_div (x : ℝ) : sigmoid x = Real.exp x / (1 + Real.exp x) := by
  rw [sigmoid_eq, Real.exp_neg]
  have h1 : (0:ℝ) < Real.exp x := Real.exp_pos x
  have h2 : (0:ℝ) < 1 + (Real.exp x)⁻¹ := by positivity
  have h3 : (0:ℝ) < 1 + Real.exp x := by positivity
  field_simp
  ring

/-- Quotient form of the sigmoid complement used by the derivative
computation. -/
theorem exp_neg_div (a : ℝ) :
    Real.exp (-a) / (1 + Real.exp (-a)) = 1 - sigmoid a := by
  rw [one_sub_sigmoid, Real.exp_neg]
  have h1 : (0:ℝ) < Real.exp a := Real.exp_pos a
  field_simp
  ring

/-- Derivative of one example's contribution to the negative log-likelihood
along an affine path `a(t) = c + b*t` of its logit: the slope is
`b * (y - sigmoid(a))`. -/
theorem term_hasDerivAt (yn b c t0 : ℝ) :
    HasDerivAt (fun t => -Real.log (1 + Real.exp (-(c + b * t))) * yn
        + -Real.log (1 + Real.exp (c + b * t)) * (1 - yn))
      (b * (yn - sigmoid (c + b * t0))) t0 := by
  have haff : HasDerivAt (fun t : ℝ => c + b * t) b t0 := by
    simpa using ((hasDerivAt_id t0).const_mul b).const_add c
  have hexp1 : HasDerivAt (fun t => Real.exp (-(c + b * t)))
      (Real.exp (-(c + b * t0)) * (-b)) t0 := by
    simpa using haff.neg.exp
  have h1 : HasDerivAt (fun t => 1 + Real.exp (-(c + b * t)))
      (Real.exp (-(c + b * t0)) * (-b)) t0 := hexp1.const_add 1
  have hne1 : (1 + Real.exp (-(c + b * t0))) ≠ 0 := by positivity
  have hlog1 := h1.log hne1
  have hexp0 : HasDerivAt (fun t => Real.exp (c + b * t))
      (Real.exp (c + b * t0) * b) t0 := haff.exp
  have h0 : HasDerivAt (fun t => 1 + Real.exp (c + b * t))
      (Real.exp (c + b * t0) * b) t0 := hexp0.const_add 1
  have hne0 : (1 + Real.exp (c + b * t0)) ≠ 0 := by positivity
  have hlog0 := h0.log hne0
  have hterm := (hlog1.neg.mul_const yn).add (hlog0.neg.mul_const (1 - yn))
  convert hterm using 1
  have d1 : Real.exp (-(c + b * t0)) * (-b) / (1 + Real.exp (-(c + b * t0)))
      = -b * (Real.exp (-(c + b * t0)) / (1 + Real.exp (-(c + b * t0)))) := by ring
  have d0 : Real.exp (c + b * t0) * b / (1 + Real.exp (c + b * t0))
      = b * (Real.exp (c + b * t0) / (1 + Real.exp (c + b * t0))) := by ring
  rw [d1, d0, exp_neg_div, ← sigmoid_eq_exp_div]
  ring

/-- The loss `t ↦ NLL(update w j t, batch)` is differentiable in each weight
coordinate, with derivative the `j`-th component of the analytic gradient
`NLL_grad`. -/
theorem NLL_hasDerivAt (N D : ℕ) (w : Fin D → ℝ) (X : Fin N → Fin D → ℝ)
    (y : Fin N → ℝ) (j : Fin D) :
    HasDerivAt (fun t => NLL (Function.update w j t) (X, y))
      (NLL_grad w (X, y) j) (w j) := by
  classical
  set c : Fin N → ℝ := fun n => ∑ k in Finset.univ.erase j, X n k * w k with hc
  have ha : ∀ (n : Fin N) (t : ℝ),
      (∑ k, X n k * Function.update w j t k) = c n + X n j * t := by
    intro n t
    rw [← Finset.add_sum_erase Finset.univ (fun k => X n k * Function.update w j t k)
      (Finset.mem_univ j)]
    rw [Function.update_same]
    rw [Finset.sum_congr rfl (fun k hk => by
      rw [Function.update_noteq (Finset.ne_of_mem_erase hk)])]
    rw [hc]
    ring
  have hfun : (fun t => NLL (Function.update w j t) (X, y))
      = fun t => -(∑ n, (-Real.log (1 + Real.exp (-(c n + X n j * t))) * y n
          + -Real.log (1 + Real.exp (c n + X n j * t)) * (1 - y n))) / N := by
    funext t
    unfold NLL BCE_with_logits predict_logit logsumexp2
    simp only [Real.exp_zero]
    congr 2
    apply Finset.sum_congr rfl
    intro n _
    rw [ha n t]
  rw [hfun]
  have hsum : HasDerivAt
      (fun t => ∑ n, (-Real.log (1 + Real.exp (-(c n + X n j * t))) * y n
        + -Real.log (1 + Real.exp (c n + X n j * t)) * (1 - y n)))
      (∑ n, X n j * (y n - sigmoid (c n + X n j * (w j)))) (w j) :=
    HasDerivAt.sum (fun n _ => term_hasDerivAt (y n) (X n j) (c n) (w j))
  have hfinal := (hsum.neg).div_const (N : ℝ)
  have ha' : ∀ n : Fin N, (∑ k, X n k * w k) = c n + X n j * (w j) := by
    intro n
    have h := ha n (w j)
    rwa [Function.update_eq_self] at h
  have heq : -(∑ n, X n j * (y n - sigmoid (c n + X n j * (w j)))) / (N : ℝ)
      = NLL_grad w (X, y) j := by
    unfold NLL_grad predict_prob predict_logit
    rw [← Finset.sum_neg_distrib]
    congr 1
    apply Finset.sum_congr rfl
    intro n _
    rw [ha' n]
    ring
  rw [← heq]
  exact hfinal

/-- `logsumexp([0, z]) = log(1 + exp z)`. -/
theorem logsumexp2_zero (z : ℝ) : logsumexp2 0 z = Real.log (1 + Real.exp z) := by
  unfold logsumexp2
  rw [Real.exp_zero]

/-- `log p1` of the log-sum-exp formulation is the log of the sigmoid. -/
theorem log_sigmoid_eq (a : ℝ) :
    Real.log (sigmoid a) = -Real.log (1 + Real.exp (-a)) := by
  rw [sigmoid_eq, one_div, Real.log_inv]

/-- `log p0` of the log-sum-exp formulation is the log of the sigmoid
complement. -/
theorem log_one_sub_sigmoid_eq (a : ℝ) :
    Real.log (1 - sigmoid a) = -Real.log (1 + Real.exp a) := by
  rw [one_sub_sigmoid, one_div, Real.log_inv]

/-- The log-sum-exp NLL equals the naive NLL exactly (over the reals). -/
theorem NLL_eq_naive (N D : ℕ) (w : Fin D → ℝ) (X : Fin N → Fin D → ℝ)
    (y : Fin N → ℝ) :
    NLL w (X, y) = NLL_naive w (X, y) := by
  unfold NLL NLL_naive BCE_with_logits
  congr 2
  apply Finset.sum_congr rfl
  intro n _
  rw [logsumexp2_zero, logsumexp2_zero, ← log_sigmoid_eq, ← log_one_sub_sigmoid_eq]
  ring

/- ===================== Claims C4 and C9 ===================== -/

/-- C4 (confirmed): for every weight vector and nonempty batch, the analytic
gradient function computes `(1/N) · Xᵗ · (sigmoid(Xw) - y)` componentwise, and
it coincides exactly with the gradient delivered by automatic differentiation
of the same scalar loss at the same point (so in particular their difference
is below the required 1e-5 tolerance in every component). -/
theorem c4_analytic_grad_eq_autodiff (N D : ℕ) (_hN : 0 < N) (w : Fin D → ℝ)
    (X : Fin N → Fin D → ℝ) (y : Fin N → ℝ) (j : Fin D) :
    NLL_grad w (X, y) j
      = (∑ n, (sigmoid (predict_logit w X n) - y n) * X n j) / N ∧
    grad_jax w (X, y) j = NLL_grad w (X, y) j ∧
    |NLL_grad w (X, y) j - grad_jax w (X, y) j| < 1e-5 := by
  have hd : grad_jax w (X, y) j = NLL_grad w (X, y) j := by
    unfold grad_jax
    exact (NLL_hasDerivAt N D w X y j).deriv
  refine ⟨rfl, hd, ?_⟩
  rw [hd, sub_self, abs_zero]
  norm_num

/-- Witness for C4: a one-example, one-feature batch at zero weights. -/
theorem c4_witness :
    grad_jax (fun _ : Fin 1 => (0 : ℝ))
        (((fun _ _ => (1 : ℝ)) : Fin 1 → Fin 1 → ℝ), ((fun _ => (0 : ℝ)) : Fin 1 → ℝ)) 0
      = NLL_grad (fun _ : Fin 1 => (0 : ℝ))
        (((fun _ _ => (1 : ℝ)) : Fin 1 → Fin 1 → ℝ), ((fun _ => (0 : ℝ)) : Fin 1 → ℝ)) 0 :=
  (c4_analytic_grad_eq_autodiff 1 1 (by norm_num) (fun _ => 0) (fun _ _ => 1)
    (fun _ => 0) 0).2.1

/-- C9 (confirmed): for every weight vector and nonempty batch, the
log-sum-exp formulation of the negative log-likelihood equals the naive
`-mean(y*log(sigmoid(a)) + (1-y)*log(1-sigmoid(a)))` formula exactly over the
reals, hence well within the required 1e-6 tolerance. -/
theorem c9_logsumexp_nll_eq_naive (N D : ℕ) (_hN : 0 < N) (w : Fin D → ℝ)
    (X : Fin N → Fin D → ℝ) (y : Fin N → ℝ) :
    NLL w (X, y) = NLL_naive w (X, y) ∧
    |NLL w (X, y) - NLL_naive w (X, y)| < 1e-6 := by
  have h := NLL_eq_naive N D w X y
  refine ⟨h, ?_⟩
  rw [h, sub_self, abs_zero]
  norm_num

/-- Witness for C9: a one-example, one-feature batch at zero weights. -/
theorem c9_witness :
    NLL (fun _ : Fin 1 => (0 : ℝ))
        (((fun _ _ => (1 : ℝ)) : Fin 1 → Fin 1 → ℝ), ((fun _ => (0 : ℝ)) : Fin 1 → ℝ))
      = NLL_naive (fun _ : Fin 1 => (0 : ℝ))
        (((fun _ _ => (1 : ℝ)) : Fin 1 → Fin 1 → ℝ), ((fun _ => (0 : ℝ)) : Fin 1 → ℝ)) :=
  (c9_logsumexp_nll_eq_naive 1 1 (by norm_num) (fun _ => 0) (fun _ _ => 1)
    (fun _ => 0)).1

end OptJax
